import Mathlib

/-!
# gsocket: `lib/gsocket-util.c`

A shallow embedding of the utility functions of `gsocket-util.c`
(`GS_daemonize`, `GS_user_secret` and its helpers, `GS_hton`) together with
the properties of the watchdog loop, the secret acquisition and the host name
resolution.

Conventions of the embedding

* a process is described from the inside: every system call it makes appears
  as an event of its trace, and what the call returned in this process is
  supplied by the caller of the model (the results of `fork`, `wait`,
  `gettimeofday`, `fopen`, `getline`, ...);
* `time_t` is a 64-bit count of seconds and `int` is 32 bits wide;
* a C string is a list of characters, read up to the first NUL character.
-/

namespace GSocket

set_option maxRecDepth 20000

/-! ## Machine integers and time -/

/-- Conversion of an integer to the 32-bit signed `int` of the C code
(two's complement wrap-around, the narrowing done by `int diff = ...`). -/
def toInt32 (x : Int) : Int :=
  (x + 2147483648) % 4294967296 - 2147483648

/-- A `time_t` value: a signed 64-bit count of seconds. -/
def isTime (t : Int) : Prop :=
  -9223372036854775808 ≤ t ∧ t < 9223372036854775808

instance (t : Int) : Decidable (isTime t) := by
  unfold isTime; infer_instance

/-- A `struct timeval`: whole seconds and microseconds. -/
structure Timeval where
  tv_sec : Int
  tv_usec : Int
deriving DecidableEq, Repr

/-- The value of a clock reading in microseconds. -/
def Timeval.micros (t : Timeval) : Int :=
  t.tv_sec * 1000000 + t.tv_usec

/-- A well-formed clock reading: seconds fit `time_t`, microseconds are below one million. -/
def Timeval.wf (t : Timeval) : Prop :=
  isTime t.tv_sec ∧ 0 ≤ t.tv_usec ∧ t.tv_usec < 1000000

instance (t : Timeval) : Decidable t.wf := by
  unfold Timeval.wf; infer_instance

/-- Lines 226-229 of `GS_daemonize`:
`int diff = now.tv_sec - last.tv_sec; int n = 60; if (diff > 60) n = 1;`. -/
def restart_delay (now last : Timeval) : Int :=
  let diff := toInt32 (now.tv_sec - last.tv_sec)
  let n := 60
  if diff > 60 then 1 else n

/-! ## `GS_daemonize` -/

/-- Modelled from the spec: the `XASSERT` macro is declared in `gs-common.h`, which is
not part of the sources at hand.  Following the specification, a failed assertion
writes a diagnostic to the sink and terminates the process with a distinguished
non-zero status; the status is taken to be the 255 that the function itself uses
for its unreachable final `exit`. -/
def XASSERT_status : Nat := 255

/-- System calls and outputs made by a process that executes `GS_daemonize`. -/
inductive Event where
  | set_errfp
  | fork (ret : Int)
  | assert_failed
  | setsid
  | close (fd : Nat)
  | signal_chld (ignore : Bool)
  | wait (ret : Int) (status : Int)
  | gettimeofday (tv : Timeval)
  | died (status : Int) (n : Int)
  | sleep (n : Int)
deriving DecidableEq, Repr

/-- How the execution of `GS_daemonize` ends in a process. -/
inductive Outcome where
  | returned
  | exited (status : Nat)
  | looping
deriving DecidableEq, Repr

/-- What the environment answers during one iteration of the watchdog loop: the
result of `fork`, the fate of the call to `wait` (`none` when the call returns -1
without having collected a child, as it does when a caught signal interrupts it;
`some k` when it collects a terminated child, `k` selecting which one), the
content of `status` afterwards, and the two clock readings. -/
structure Iteration where
  pid : Int
  who : Option Nat
  status : Int
  now : Timeval
  restarted : Timeval
deriving DecidableEq, Repr

/-- The call `wait(&status)` in a process whose live children are `live`.  Either it
collects the termination of one of them and returns its pid (the environment
chooses which), or it returns -1 (here `none`): when it is interrupted, and when
there is no child.  Line 223 does not look at the value returned. -/
def wait (live : List Int) : Option Nat → Option Int
  | none => none
  | some who => live[who % live.length]?

/-- The children left after `wait` returned. -/
def reap (live : List Int) : Option Int → List Int
  | some q => live.erase q
  | none => live

/-- The watchdog loop of `GS_daemonize` (lines 210-234), run against the answers of
the environment for the successive iterations.  `last` is the variable of that
name, `live` the children of the process that have not been collected.  When the
answers are used up the process is still inside the loop. -/
def watchdog : List Iteration → Timeval → List Int → List Event × Outcome
  | [], _, _ => ([], Outcome.looping)
  | it :: rest, last, live =>
    if it.pid < 0 then
      ([Event.signal_chld false, Event.fork it.pid, Event.assert_failed],
        Outcome.exited XASSERT_status)
    else if it.pid = 0 then
      ([Event.signal_chld false, Event.fork it.pid, Event.signal_chld true],
        Outcome.returned)
    else
      let live1 := it.pid :: live
      let w := wait live1 it.who
      let n := restart_delay it.now last
      let r := watchdog rest it.restarted (reap live1 w)
      ([Event.signal_chld false, Event.fork it.pid, Event.wait (w.getD (-1)) it.status,
        Event.gettimeofday it.now, Event.died it.status n, Event.sleep n,
        Event.gettimeofday it.restarted] ++ r.1, r.2)

/-- The function `GS_daemonize` (lines 181-237) in a process where the first `fork`
returned `fork0` and the loop receives the answers `iters`. -/
def GS_daemonize (fork0 : Int) (iters : List Iteration) : List Event × Outcome :=
  if fork0 < 0 then
    ([Event.set_errfp, Event.fork fork0, Event.assert_failed], Outcome.exited XASSERT_status)
  else if fork0 > 0 then
    ([Event.set_errfp, Event.fork fork0], Outcome.exited 0)
  else
    let r := watchdog iters ⟨0, 0⟩ []
    ([Event.set_errfp, Event.fork fork0, Event.setsid, Event.close 0, Event.close 1,
      Event.close 2] ++ r.1, r.2)

/-- The effect of one event on the set of workers that were started by the process
and whose termination has not been collected. -/
def track (live : List Int) : Event → List Int
  | Event.fork p => if p > 0 then p :: live else live
  | Event.wait q _ => live.erase q
  | _ => live

/-- The workers started and not yet collected after the events of a trace. -/
def aliveAfter (live : List Int) (tr : List Event) : List Int :=
  tr.foldl track live

/-- A trace in which every start of a worker happens while no worker is alive. -/
def serialized : List Int → List Event → Prop
  | _, [] => True
  | live, e :: es =>
    (∀ p, e = Event.fork p → 0 < p → live = []) ∧
    (∀ q st, e = Event.wait q st → live = [q]) ∧ serialized (track live e) es

/-- The events of the iteration in which `fork` did not return a child's pid. -/
def last_events (pid : Int) : List Event × Outcome :=
  if pid < 0 then
    ([Event.signal_chld false, Event.fork pid, Event.assert_failed],
      Outcome.exited XASSERT_status)
  else
    ([Event.signal_chld false, Event.fork pid, Event.signal_chld true], Outcome.returned)

/-! ## C strings -/

/-- The NUL character that terminates a C string. -/
def NUL : Char := Char.ofNat 0

/-- The C string that starts at the beginning of a buffer: its characters up to the
first NUL. -/
def cstr (buf : List Char) : List Char :=
  buf.takeWhile (fun c => c ≠ NUL)

/-- The library function `strlen`. -/
def strlen (buf : List Char) : Nat :=
  (cstr buf).length

/-- A `char *` value handed back to a caller: `NULL`, the very pointer the caller
passed in, or a fresh heap copy. -/
inductive Ptr where
  | null
  | arg (s : List Char)
  | heap (s : List Char)
deriving DecidableEq, Repr

/-- The library function `strdup`: a fresh copy of the C string in the buffer. -/
def strdup (buf : List Char) : Ptr :=
  Ptr.heap (cstr buf)

/-- The statement `if (buf[i] == '\n') buf[i] = 0;`. -/
def strip_newline_at (buf : List Char) (i : Nat) : List Char :=
  if buf[i]? = some '\n' then buf.set i NUL else buf

/-! ## Secret acquisition -/

/-- What the secret functions do besides computing their result. -/
inductive SEvent where
  | print (msg : String)
  | getline
  | fopen (file : List Char)
  | fread
  | fclose
  | set_errorf (file : List Char)
  | assert_failed
  | library_init
  | rand_bytes
deriving DecidableEq, Repr

/-- The end of a call: it returns a value, or a failed `XASSERT` terminates the
process. -/
inductive Result (α : Type) where
  | returned (v : α)
  | aborted (status : Nat)
deriving DecidableEq, Repr

/-- The successive results of the library function `getline` on an input stream:
each is the text up to and including the next newline, the last one may lack the
newline; at the end of the stream `getline` returns -1. -/
def getlines : List Char → List (List Char)
  | [] => []
  | c :: cs =>
    if c = '\n' then ['\n'] :: getlines cs
    else
      match getlines cs with
      | [] => [[c]]
      | l :: ls => (c :: l) :: ls

/-- The prompt of `user_secret_from_stdin`. -/
def prompt : String := "Enter Secret (or press Enter to generate): "

/-- The function `user_secret_from_stdin` (lines 49-71), run against the successive
results of `getline`. -/
def user_secret_from_stdin : List (List Char) → List SEvent × Result Ptr
  | [] => ([SEvent.print prompt, SEvent.getline, SEvent.assert_failed],
      Result.aborted XASSERT_status)
  | line :: rest =>
    let len := line.length
    if ¬ (len > 0) then
      ([SEvent.print prompt, SEvent.getline, SEvent.assert_failed],
        Result.aborted XASSERT_status)
    else
      let ptr := strip_newline_at (line ++ [NUL]) (len - 1)
      if strlen ptr = 0 then
        ([SEvent.print prompt, SEvent.getline], Result.returned Ptr.null)
      else if strlen ptr ≥ 8 then
        ([SEvent.print prompt, SEvent.getline], Result.returned (strdup ptr))
      else
        let r := user_secret_from_stdin rest
        ([SEvent.print prompt, SEvent.getline, SEvent.print "Too short.\n"] ++ r.1, r.2)

/-- The function `user_secret_from_file` (lines 74-101).  `fopen` tells for a path
whether the file can be opened and, if so, the bytes that `fread` finds in it. -/
def user_secret_from_file (fopen : List Char → Option (List Char)) :
    Option (List Char) → List SEvent × Ptr
  | none => ([], Ptr.null)
  | some file =>
    match fopen file with
    | none => ([SEvent.fopen file, SEvent.set_errorf file], Ptr.null)
    | some content =>
      let data := content.take (256 - 1)
      let ret : Int := data.length
      let buf := data ++ List.replicate (256 - data.length) NUL
      if ret ≤ 0 then
        ([SEvent.fopen file, SEvent.fread, SEvent.fclose], Ptr.null)
      else
        ([SEvent.fopen file, SEvent.fread, SEvent.fclose],
          strdup (strip_newline_at buf (data.length - 1)))

/-- What `GS_user_secret` finds around it: the file system, the standard input, the
bytes delivered by `RAND_bytes` (if it succeeds) and the text that
`GS_ADDR_bin2addr` derives from them. -/
structure World where
  fopen : List Char → Option (List Char)
  stdin : List Char
  RAND_bytes : Option (List Nat)
  b58str : List Nat → List Char

/-- The function `GS_gen_secret` (lines 128-144). -/
def GS_gen_secret (w : World) : List SEvent × Result Ptr :=
  match w.RAND_bytes with
  | none => ([SEvent.library_init, SEvent.rand_bytes, SEvent.assert_failed],
      Result.aborted XASSERT_status)
  | some buf => ([SEvent.library_init, SEvent.rand_bytes],
      Result.returned (strdup (w.b58str buf ++ [NUL])))

/-- The function `GS_user_secret` (lines 146-173). -/
def GS_user_secret (w : World) (sec_file sec_str : Option (List Char)) :
    List SEvent × Result Ptr :=
  match sec_file with
  | some file =>
    let r := user_secret_from_file w.fopen (some file)
    if r.2 ≠ Ptr.null then (r.1, Result.returned r.2) else (r.1, Result.returned Ptr.null)
  | none =>
    match sec_str with
    | some s => ([], Result.returned (Ptr.arg s))
    | none =>
      let r := user_secret_from_stdin (getlines w.stdin)
      match r.2 with
      | Result.aborted st => (r.1, Result.aborted st)
      | Result.returned ptr =>
        if ptr ≠ Ptr.null then (r.1, Result.returned ptr)
        else
          let g := GS_gen_secret w
          (r.1 ++ g.1, g.2)

/-! ### Vocabulary of the statements on secrets -/

/-- A text with one trailing newline, if there is one, removed. -/
def chomp (data : List Char) : List Char :=
  if data.getLast? = some '\n' then data.dropLast else data

/-- The input stream in which the given lines are entered one after the other, each
ended by a newline, followed by `tail`. -/
def entered : List (List Char) → List Char → List Char
  | [], tail => tail
  | s :: ss, tail => s ++ '\n' :: entered ss tail

/-- The trace of `n` answers that are rejected as too short, followed by the prompt
and the reading of one more answer. -/
def asked : Nat → List SEvent
  | 0 => [SEvent.print prompt, SEvent.getline]
  | n + 1 => [SEvent.print prompt, SEvent.getline, SEvent.print "Too short.\n"] ++ asked n

/-! ## Host name resolution -/

/-- A 32-bit unsigned value (`uint32_t`, `in_addr_t`). -/
abbrev U32 := Fin 4294967296

/-- The part of a `struct hostent` that `GS_hton` reads: `h_addr_list`, which is `NULL`
or an array of addresses ended by `NULL`. -/
structure hostent where
  h_addr_list : Option (List U32)
deriving DecidableEq, Repr

/-- The library calls made by `GS_hton`. -/
inductive HEvent where
  | inet_addr (name : List Char)
  | gethostbyname (name : List Char)
deriving DecidableEq, Repr

/-- The function `GS_hton` (lines 103-126) over the two library functions it calls. -/
def GS_hton (inet_addr : List Char → U32) (gethostbyname : List Char → Option hostent)
    (hostname : List Char) : List HEvent × U32 :=
  let ip := inet_addr hostname
  if ip ≠ 0xFFFFFFFF then ([HEvent.inet_addr hostname], ip)
  else
    match gethostbyname hostname with
    | none => ([HEvent.inet_addr hostname, HEvent.gethostbyname hostname], 0xFFFFFFFF)
    | some he =>
      match he.h_addr_list with
      | none => ([HEvent.inet_addr hostname, HEvent.gethostbyname hostname], 0xFFFFFFFF)
      | some [] => ([HEvent.inet_addr hostname, HEvent.gethostbyname hostname], 0xFFFFFFFF)
      | some (a :: _) => ([HEvent.inet_addr hostname, HEvent.gethostbyname hostname], a)

/-! # Properties -/

/-! ### The restart delay -/

theorem toInt32_of_range (x : Int) (h1 : -2147483648 ≤ x) (h2 : x < 2147483648) :
    toInt32 x = x := by
  unfold toInt32
  omega

theorem restart_delay_of_range (now last : Timeval)
    (h1 : -2147483648 ≤ now.tv_sec - last.tv_sec)
    (h2 : now.tv_sec - last.tv_sec < 2147483648) :
    restart_delay now last = if now.tv_sec - last.tv_sec > 60 then 1 else 60 := by
  simp only [restart_delay, toInt32_of_range _ h1 h2]

theorem restart_delay_values (now last : Timeval) :
    restart_delay now last = 1 ∨ restart_delay now last = 60 := by
  simp only [restart_delay]
  split <;> simp

/-- At the first exit (`last` still zero) the delay is 1 for the clock readings
between 61 and 2147483647 seconds. -/
theorem first_restart_delay_of_range (now : Timeval) (h1 : 60 < now.tv_sec)
    (h2 : now.tv_sec < 2147483648) : restart_delay now ⟨0, 0⟩ = 1 := by
  rw [restart_delay_of_range now ⟨0, 0⟩ (by simp only; omega) (by simp only; omega)]
  simp only [sub_zero]
  simp [h1]

/-- The delay slept in an iteration of the loop is `restart_delay` of the reading
taken after `wait` and of the reading stored in `last`. -/
theorem watchdog_sleeps (it : Iteration) (rest : List Iteration) (last : Timeval)
    (live : List Int) (h : 0 < it.pid) :
    Event.sleep (restart_delay it.now last) ∈ (watchdog (it :: rest) last live).1 ∧
    Event.died it.status (restart_delay it.now last) ∈ (watchdog (it :: rest) last live).1 := by
  have h1 : ¬ it.pid < 0 := by omega
  have h2 : ¬ it.pid = 0 := by omega
  simp [watchdog, h1, h2]

/-- One full iteration of the loop in the watchdog process. -/
theorem watchdog_pos (it : Iteration) (rest : List Iteration) (last : Timeval)
    (live : List Int) (h : 0 < it.pid) :
    watchdog (it :: rest) last live =
      ([Event.signal_chld false, Event.fork it.pid,
        Event.wait ((wait (it.pid :: live) it.who).getD (-1)) it.status,
        Event.gettimeofday it.now, Event.died it.status (restart_delay it.now last),
        Event.sleep (restart_delay it.now last), Event.gettimeofday it.restarted]
        ++ (watchdog rest it.restarted
              (reap (it.pid :: live) (wait (it.pid :: live) it.who))).1,
       (watchdog rest it.restarted
              (reap (it.pid :: live) (wait (it.pid :: live) it.who))).2) := by
  have h1 : ¬ it.pid < 0 := by omega
  have h2 : ¬ it.pid = 0 := by omega
  simp only [watchdog, h1, h2, if_false]

/-- With a single live child, `wait` collects that child. -/
theorem wait_single (p : Int) (who : Nat) : wait [p] (some who) = some p := by
  simp [wait, Nat.mod_one]

theorem reap_single (p : Int) (who : Nat) : reap [p] (wait [p] (some who)) = [] := by
  simp [wait_single, reap]

/-! ### Serialisation of the workers -/

theorem track_length (live : List Int) (e : Event) (hl : live.length ≤ 1)
    (hf : ∀ p, e = Event.fork p → 0 < p → live = []) : (track live e).length ≤ 1 := by
  cases e with
  | fork p =>
    by_cases hp : 0 < p
    · have := hf p rfl hp
      subst this
      simp [track, hp]
    · simp [track, hp, hl]
  | wait q st =>
    simp only [track]
    exact le_trans (List.length_erase_le q live) hl
  | _ => simpa [track] using hl

theorem serialized_alive (tr : List Event) :
    ∀ (live : List Int) (pre post : List Event), serialized live tr → live.length ≤ 1 →
      tr = pre ++ post →
      (aliveAfter live pre).length ≤ 1 ∧
      (∀ p rest, post = Event.fork p :: rest → 0 < p → aliveAfter live pre = []) ∧
      (∀ q st rest, post = Event.wait q st :: rest → aliveAfter live pre = [q]) := by
  induction tr with
  | nil =>
    intro live pre post _ hl h
    have hpre : pre = [] := by
      cases pre with
      | nil => rfl
      | cons a l => simp at h
    have hpost : post = [] := by
      subst hpre
      simpa using h.symm
    subst hpre
    subst hpost
    simp [aliveAfter, hl]
  | cons e es ih =>
    intro live pre post hs hl h
    obtain ⟨hf, hw, hrest⟩ := hs
    cases pre with
    | nil =>
      simp only [List.nil_append] at h
      subst h
      refine ⟨by simpa [aliveAfter] using hl, ?_, ?_⟩
      · intro p rest hp hpos
        simp only [List.cons.injEq] at hp
        simpa [aliveAfter] using hf p hp.1 hpos
      · intro q st rest hq
        simp only [List.cons.injEq] at hq
        simpa [aliveAfter] using hw q st hq.1
    | cons a pre1 =>
      simp only [List.cons_append, List.cons.injEq] at h
      obtain ⟨hae, htl⟩ := h
      subst hae
      have := ih (track live e) pre1 post hrest (track_length live e hl hf) htl
      simpa [aliveAfter] using this

/-- As long as no call to `wait` fails, the trace of the loop is serialized. -/
theorem serialized_watchdog (iters : List Iteration) :
    ∀ last : Timeval, (∀ it ∈ iters, it.who ≠ none) →
      serialized [] (watchdog iters last []).1 := by
  induction iters with
  | nil => intro last _; simp [watchdog, serialized]
  | cons it rest ih =>
    intro last hw
    rcases lt_trichotomy it.pid 0 with hneg | hzero | hpos
    · simp [watchdog, hneg, serialized, track]
    · simp [watchdog, hzero, serialized, track]
    · obtain ⟨who, hwho⟩ := Option.ne_none_iff_exists'.mp (hw it (List.mem_cons_self _ _))
      rw [watchdog_pos it rest last [] hpos, hwho, reap_single, wait_single]
      have := ih it.restarted (fun j hj => hw j (List.mem_cons_of_mem _ hj))
      simp [serialized, track, this, hpos]

theorem serialized_daemonize (iters : List Iteration) (hw : ∀ it ∈ iters, it.who ≠ none) :
    serialized [] (GS_daemonize 0 iters).1 := by
  have := serialized_watchdog iters ⟨0, 0⟩ hw
  simp [GS_daemonize, serialized, track, this]

/-- In the runs of the watchdog in which every call to `wait` collects a child: at
every cut of the trace at most one started worker is uncollected, a `fork` that
starts a worker happens only when none is left, and every `wait` collects the
one worker that is alive. -/
theorem workers_serialized_while_wait_succeeds (iters : List Iteration)
    (pre post : List Event) (hw : ∀ it ∈ iters, it.who ≠ none)
    (h : (GS_daemonize 0 iters).1 = pre ++ post) :
    (aliveAfter [] pre).length ≤ 1 ∧
    (∀ p rest, post = Event.fork p :: rest → 0 < p → aliveAfter [] pre = []) ∧
    (∀ q st rest, post = Event.wait q st :: rest → aliveAfter [] pre = [q]) :=
  serialized_alive _ [] pre post (serialized_daemonize iters hw) (by simp) h

/-! ### The ways out of `GS_daemonize` -/

theorem watchdog_stop (pre : List Iteration) (it : Iteration) (post : List Iteration) :
    ∀ (last : Timeval) (live : List Int), (∀ j ∈ pre, 0 < j.pid) → it.pid ≤ 0 →
      watchdog (pre ++ it :: post) last live =
        ((watchdog pre last live).1 ++ (last_events it.pid).1, (last_events it.pid).2) := by
  induction pre with
  | nil =>
    intro last live _ hit
    by_cases hneg : it.pid < 0
    · simp [watchdog, last_events, hneg]
    · have hz : it.pid = 0 := by omega
      simp [watchdog, last_events, hz]
  | cons a pre1 ih =>
    intro last live hpre hit
    have ha : 0 < a.pid := hpre a (List.mem_cons_self _ _)
    have hpre1 : ∀ j ∈ pre1, 0 < j.pid := fun j hj => hpre j (List.mem_cons_of_mem _ hj)
    rw [List.cons_append, watchdog_pos a _ last live ha, watchdog_pos a _ last live ha,
      ih _ _ hpre1 hit]
    simp

theorem watchdog_looping (iters : List Iteration) :
    ∀ (last : Timeval) (live : List Int), (∀ j ∈ iters, 0 < j.pid) →
      (watchdog iters last live).2 = Outcome.looping := by
  induction iters with
  | nil => intro last live _; simp [watchdog]
  | cons a rest ih =>
    intro last live h
    have ha : 0 < a.pid := h a (List.mem_cons_self _ _)
    rw [watchdog_pos a _ last live ha]
    exact ih _ _ (fun j hj => h j (List.mem_cons_of_mem _ hj))

/-- Every list of answers either keeps the watchdog looping or has a first iteration
whose `fork` did not return a child's pid. -/
theorem iterations_split (iters : List Iteration) :
    (∀ j ∈ iters, 0 < j.pid) ∨
    ∃ pre it post, iters = pre ++ it :: post ∧ (∀ j ∈ pre, 0 < j.pid) ∧ it.pid ≤ 0 := by
  induction iters with
  | nil => left; simp
  | cons a rest ih =>
    by_cases ha : 0 < a.pid
    · rcases ih with h | ⟨pre, it, post, heq, hpre, hit⟩
      · left
        intro j hj
        rcases List.mem_cons.mp hj with rfl | hj
        · exact ha
        · exact h j hj
      · right
        refine ⟨a :: pre, it, post, by simp [heq], ?_, hit⟩
        intro j hj
        rcases List.mem_cons.mp hj with rfl | hj
        · exact ha
        · exact hpre j hj
    · right
      exact ⟨[], a, rest, rfl, by simp, by omega⟩

theorem watchdog_returned_iff (iters : List Iteration) (last : Timeval) (live : List Int) :
    (watchdog iters last live).2 = Outcome.returned ↔
      ∃ pre it post, iters = pre ++ it :: post ∧ (∀ j ∈ pre, 0 < j.pid) ∧ it.pid = 0 := by
  constructor
  · intro h
    rcases iterations_split iters with hall | ⟨pre, it, post, heq, hpre, hit⟩
    · rw [watchdog_looping iters last live hall] at h
      cases h
    · refine ⟨pre, it, post, heq, hpre, ?_⟩
      rw [heq, watchdog_stop pre it post last live hpre hit] at h
      by_contra hne
      have hneg : it.pid < 0 := by omega
      simp [last_events, hneg] at h
  · rintro ⟨pre, it, post, heq, hpre, hit⟩
    rw [heq, watchdog_stop pre it post last live hpre (by omega)]
    simp [last_events, hit]

/-! ### Claims on `GS_daemonize` -/

/-- C1: the restart delay is meant to be 1 exactly when `now - last > 60`.  For a
previous restart recorded at second 100 (a clock that started at the epoch) and
a worker exit at second 2208988800 (the clock set to the year 2040 meanwhile)
the interval is 2208988700 seconds, far more than 60, yet the narrowing of the
difference to `int` makes `diff` negative, and the delay slept and printed by
the loop is 60. -/
theorem restart_delay_wraps_on_long_interval :
    (2208988800 : Int) - 100 > 60 ∧
    restart_delay ⟨2208988800, 0⟩ ⟨100, 0⟩ = 60 ∧
    (watchdog [⟨7, some 0, 0, ⟨2208988800, 0⟩, ⟨2208988860, 0⟩⟩] ⟨100, 0⟩ []).1 =
      [Event.signal_chld false, Event.fork 7, Event.wait 7 0,
        Event.gettimeofday ⟨2208988800, 0⟩, Event.died 0 60, Event.sleep 60,
        Event.gettimeofday ⟨2208988860, 0⟩] := by
  decide

/-- C2: at the first worker exit (`last` still zero) the delay is not always 1: for
the clock reading 2147483648 (and every later one below 4294967357) the `int`
difference is not above 60, and so it is for a reading within the first minute
of the epoch; the watchdog then sleeps 60 seconds before the first restart. -/
theorem first_restart_delay_not_immediate :
    restart_delay ⟨2147483648, 0⟩ ⟨0, 0⟩ = 60 ∧
    restart_delay ⟨30, 0⟩ ⟨0, 0⟩ = 60 ∧
    (GS_daemonize 0 [⟨7, some 0, 0, ⟨2147483648, 0⟩, ⟨2147483708, 0⟩⟩]).1 =
      [Event.set_errfp, Event.fork 0, Event.setsid, Event.close 0, Event.close 1,
        Event.close 2, Event.signal_chld false, Event.fork 7, Event.wait 7 0,
        Event.gettimeofday ⟨2147483648, 0⟩, Event.died 0 60, Event.sleep 60,
        Event.gettimeofday ⟨2147483708, 0⟩] := by
  decide

/-- C4: `GS_daemonize` returns to its caller exactly in a process where the first
`fork` returned 0 and, after any number of iterations in which the loop's `fork`
returned a child's pid, the loop's `fork` returned 0; the execution ends there
(the trace ends with that `fork` and the `signal` call of the worker, whatever
the environment would answer afterwards).  The calling process, where the first
`fork` returns a pid, exits with status 0, and the watchdog, whose loop forks
all return a pid, is still in the loop after any number of iterations. -/
theorem daemonize_returns_only_in_worker (fork0 : Int) (iters : List Iteration) :
    ((GS_daemonize fork0 iters).2 = Outcome.returned ↔
      fork0 = 0 ∧ ∃ pre it post,
        iters = pre ++ it :: post ∧ (∀ j ∈ pre, 0 < j.pid) ∧ it.pid = 0) ∧
    (∀ pre it post, fork0 = 0 → iters = pre ++ it :: post → (∀ j ∈ pre, 0 < j.pid) →
      it.pid = 0 →
        GS_daemonize fork0 iters =
          ((GS_daemonize fork0 pre).1 ++
            [Event.signal_chld false, Event.fork 0, Event.signal_chld true],
           Outcome.returned)) ∧
    (0 < fork0 →
      GS_daemonize fork0 iters = ([Event.set_errfp, Event.fork fork0], Outcome.exited 0)) ∧
    (fork0 = 0 → (∀ j ∈ iters, 0 < j.pid) →
      (GS_daemonize fork0 iters).2 = Outcome.looping) := by
  refine ⟨?_, ?_, ?_, ?_⟩
  · rcases lt_trichotomy fork0 0 with hneg | hzero | hpos
    · have hne : fork0 ≠ 0 := by omega
      simp [GS_daemonize, hneg, hne]
    · subst hzero
      simp only [GS_daemonize, lt_irrefl, gt_iff_lt, if_false, true_and]
      exact watchdog_returned_iff iters ⟨0, 0⟩ []
    · have hne : fork0 ≠ 0 := by omega
      have hnn : ¬ fork0 < 0 := by omega
      simp [GS_daemonize, hpos, hne, hnn]
  · intro pre it post hzero heq hpre hit
    subst hzero
    subst heq
    simp only [GS_daemonize, lt_irrefl, gt_iff_lt, if_false]
    rw [watchdog_stop pre it post ⟨0, 0⟩ [] hpre (by omega)]
    simp [last_events, hit]
  · intro hpos
    have hnn : ¬ fork0 < 0 := by omega
    simp [GS_daemonize, hpos, hnn]
  · intro hzero hall
    subst hzero
    simp only [GS_daemonize, lt_irrefl, gt_iff_lt, if_false]
    exact watchdog_looping iters ⟨0, 0⟩ [] hall

theorem daemonize_returns_only_in_worker_witness :
    GS_daemonize 0 [⟨7, some 0, 9, ⟨100, 0⟩, ⟨101, 0⟩⟩, ⟨0, some 0, 0, ⟨0, 0⟩, ⟨0, 0⟩⟩,
        ⟨8, some 0, 0, ⟨200, 0⟩, ⟨201, 0⟩⟩] =
      ((GS_daemonize 0 [⟨7, some 0, 9, ⟨100, 0⟩, ⟨101, 0⟩⟩]).1 ++
        [Event.signal_chld false, Event.fork 0, Event.signal_chld true],
       Outcome.returned) :=
  (daemonize_returns_only_in_worker 0 [⟨7, some 0, 9, ⟨100, 0⟩, ⟨101, 0⟩⟩,
      ⟨0, some 0, 0, ⟨0, 0⟩, ⟨0, 0⟩⟩, ⟨8, some 0, 0, ⟨200, 0⟩, ⟨201, 0⟩⟩]).2.1
    [⟨7, some 0, 9, ⟨100, 0⟩, ⟨101, 0⟩⟩] ⟨0, some 0, 0, ⟨0, 0⟩, ⟨0, 0⟩⟩
    [⟨8, some 0, 0, ⟨200, 0⟩, ⟨201, 0⟩⟩] rfl rfl (by decide) rfl

/-- C5: the start of a new worker is meant to follow the collected termination of
the previous one.  When the call to `wait` of the first iteration returns -1
without collecting worker 7 (it was interrupted), the loop still prints its
line, sleeps and forks: worker 8 is started while worker 7 is alive, and two
workers started by the watchdog are alive at the same time. -/
theorem second_worker_started_after_failed_wait :
    (GS_daemonize 0 [⟨7, none, 0, ⟨1000, 0⟩, ⟨1001, 0⟩⟩,
        ⟨8, some 0, 0, ⟨1002, 0⟩, ⟨1062, 0⟩⟩]).1 =
      [Event.set_errfp, Event.fork 0, Event.setsid, Event.close 0, Event.close 1,
        Event.close 2, Event.signal_chld false, Event.fork 7, Event.wait (-1) 0,
        Event.gettimeofday ⟨1000, 0⟩, Event.died 0 1, Event.sleep 1,
        Event.gettimeofday ⟨1001, 0⟩, Event.signal_chld false]
      ++ [Event.fork 8, Event.wait 8 0, Event.gettimeofday ⟨1002, 0⟩, Event.died 0 60,
        Event.sleep 60, Event.gettimeofday ⟨1062, 0⟩] ∧
    aliveAfter [] [Event.set_errfp, Event.fork 0, Event.setsid, Event.close 0,
        Event.close 1, Event.close 2, Event.signal_chld false, Event.fork 7,
        Event.wait (-1) 0, Event.gettimeofday ⟨1000, 0⟩, Event.died 0 1, Event.sleep 1,
        Event.gettimeofday ⟨1001, 0⟩, Event.signal_chld false] = [7] ∧
    aliveAfter [] [Event.set_errfp, Event.fork 0, Event.setsid, Event.close 0,
        Event.close 1, Event.close 2, Event.signal_chld false, Event.fork 7,
        Event.wait (-1) 0, Event.gettimeofday ⟨1000, 0⟩, Event.died 0 1, Event.sleep 1,
        Event.gettimeofday ⟨1001, 0⟩, Event.signal_chld false, Event.fork 8] = [8, 7] := by
  decide

/-- C6: when `fork` fails (returns a negative value), at the first call or in any
iteration of the loop, the process is terminated by the failed `XASSERT`: the
trace ends with the failed `fork` and the diagnostic, with no `wait`, `sleep`
or further `fork`, and the status of the exit is the non-zero status of
`XASSERT`; the call neither returns nor exits with status 0. -/
theorem daemonize_fork_failure_aborts :
    XASSERT_status ≠ 0 ∧
    (∀ (fork0 : Int) (iters : List Iteration), fork0 < 0 →
      GS_daemonize fork0 iters =
        ([Event.set_errfp, Event.fork fork0, Event.assert_failed],
          Outcome.exited XASSERT_status)) ∧
    (∀ (pre : List Iteration) (it : Iteration) (post : List Iteration),
      (∀ j ∈ pre, 0 < j.pid) → it.pid < 0 →
      GS_daemonize 0 (pre ++ it :: post) =
        ((GS_daemonize 0 pre).1 ++
          [Event.signal_chld false, Event.fork it.pid, Event.assert_failed],
         Outcome.exited XASSERT_status)) := by
  refine ⟨by decide, ?_, ?_⟩
  · intro fork0 iters hneg
    simp [GS_daemonize, hneg]
  · intro pre it post hpre hneg
    simp only [GS_daemonize, lt_irrefl, gt_iff_lt, if_false]
    rw [watchdog_stop pre it post ⟨0, 0⟩ [] hpre (by omega)]
    simp [last_events, hneg]

theorem daemonize_fork_failure_aborts_witness :
    GS_daemonize (-1) [] =
        ([Event.set_errfp, Event.fork (-1), Event.assert_failed], Outcome.exited 255) ∧
    GS_daemonize 0 [⟨7, some 0, 9, ⟨100, 0⟩, ⟨101, 0⟩⟩, ⟨-1, some 0, 0, ⟨0, 0⟩, ⟨0, 0⟩⟩] =
        ((GS_daemonize 0 [⟨7, some 0, 9, ⟨100, 0⟩, ⟨101, 0⟩⟩]).1 ++
          [Event.signal_chld false, Event.fork (-1), Event.assert_failed],
         Outcome.exited 255) :=
  ⟨daemonize_fork_failure_aborts.2.1 (-1) [] (by decide),
   daemonize_fork_failure_aborts.2.2 [⟨7, some 0, 9, ⟨100, 0⟩, ⟨101, 0⟩⟩]
     ⟨-1, some 0, 0, ⟨0, 0⟩, ⟨0, 0⟩⟩ [] (by decide) (by decide)⟩

/-! ### C strings and buffers -/

theorem takeWhile_append_stop (p : Char → Bool) (a : List Char) (x : Char) (r : List Char)
    (hx : p x = false) : (a ++ x :: r).takeWhile p = a.takeWhile p := by
  induction a with
  | nil => simp [List.takeWhile, hx]
  | cons c cs ih =>
    simp only [List.cons_append, List.takeWhile]
    cases p c <;> simp [ih]

theorem cstr_append_nul (a r : List Char) : cstr (a ++ NUL :: r) = cstr a := by
  unfold cstr
  exact takeWhile_append_stop _ a NUL r (by simp)

theorem cstr_of_no_nul (a : List Char) (h : NUL ∉ a) : cstr a = a := by
  unfold cstr
  rw [List.takeWhile_eq_self_iff]
  intro c hc
  have : c ≠ NUL := fun hcn => h (hcn ▸ hc)
  simpa using this

theorem strip_newline_at_append (d : List Char) (c : Char) (r : List Char) :
    strip_newline_at (d ++ c :: r) d.length =
      if c = '\n' then d ++ NUL :: r else d ++ c :: r := by
  have hget : (d ++ c :: r)[d.length]? = some c := by
    rw [List.getElem?_append_right (le_refl _)]
    simp
  unfold strip_newline_at
  rw [hget]
  by_cases hc : c = '\n'
  · subst hc
    simp
  · simp [hc]

theorem chomp_concat (d : List Char) (c : Char) :
    chomp (d ++ [c]) = if c = '\n' then d else d ++ [c] := by
  unfold chomp
  by_cases hc : c = '\n'
  · subst hc
    simp
  · simp [hc]

/-- The C string left in the buffer of `user_secret_from_file` after the newline was
removed is the C string of the chomped data. -/
theorem file_buffer_cstr (data : List Char) (hne : data ≠ []) (hlen : data.length ≤ 255) :
    cstr (strip_newline_at (data ++ List.replicate (256 - data.length) NUL)
      (data.length - 1)) = cstr (chomp data) := by
  rcases List.eq_nil_or_concat data with h | ⟨d, c, h⟩
  · exact absurd h hne
  · rw [List.concat_eq_append] at h
    subst h
    have hlen1 : d.length + 1 ≤ 255 := by simpa using hlen
    have hk : 256 - (d ++ [c]).length = (255 - (d.length + 1)) + 1 := by
      have : (d ++ [c]).length = d.length + 1 := by simp
      omega
    rw [hk, List.replicate_succ]
    have hidx : (d ++ [c]).length - 1 = d.length := by simp
    rw [hidx, List.append_assoc, List.singleton_append, strip_newline_at_append,
      chomp_concat]
    by_cases hc : c = '\n'
    · simp only [hc, if_true]
      exact cstr_append_nul d _
    · simp only [hc, if_false]
      have : d ++ c :: NUL :: List.replicate (255 - (d.length + 1)) NUL
          = (d ++ [c]) ++ NUL :: List.replicate (255 - (d.length + 1)) NUL := by simp
      rw [this]
      exact cstr_append_nul _ _

theorem getlines_line (l : List Char) (rest : List Char) (h : '\n' ∉ l) :
    getlines (l ++ '\n' :: rest) = (l ++ ['\n']) :: getlines rest := by
  induction l with
  | nil => simp [getlines]
  | cons c cs ih =>
    have hc : c ≠ '\n' := fun hcn => h (by simp [hcn])
    have hcs : '\n' ∉ cs := fun hm => h (List.mem_cons_of_mem _ hm)
    simp [getlines, hc, ih hcs]

/-- The text that `user_secret_from_stdin` examines for a line ended by a newline. -/
theorem line_buffer_cstr (l : List Char) :
    cstr (strip_newline_at ((l ++ ['\n']) ++ [NUL]) ((l ++ ['\n']).length - 1)) = cstr l := by
  have hidx : (l ++ ['\n']).length - 1 = l.length := by simp
  rw [hidx, List.append_assoc, List.singleton_append, strip_newline_at_append]
  rw [if_pos rfl]
  exact cstr_append_nul l _

theorem chomp_no_nul (data : List Char) (h : NUL ∉ data) : NUL ∉ chomp data := by
  unfold chomp
  split
  · exact fun hm => h (List.mem_of_mem_dropLast hm)
  · exact h

/-- The result of `user_secret_from_file` on a file that opens and is not empty. -/
theorem user_secret_from_file_content (fopen : List Char → Option (List Char))
    (file content : List Char) (hopen : fopen file = some content) (hne : content ≠ []) :
    user_secret_from_file fopen (some file) =
      ([SEvent.fopen file, SEvent.fread, SEvent.fclose],
        Ptr.heap (cstr (chomp (content.take 255)))) := by
  have hdne : content.take 255 ≠ [] := by
    cases content with
    | nil => exact absurd rfl hne
    | cons c cs => simp
  have hlen : (content.take 255).length ≤ 255 := by
    simp
  have hpos : 0 < (content.take 255).length := List.length_pos.mpr hdne
  have hret : ¬ (((content.take 255).length : Int) ≤ 0) := by omega
  simp only [user_secret_from_file, hopen]
  rw [if_neg hret]
  simp only [strdup, file_buffer_cstr _ hdne hlen]

/-! ### Claims on the secret functions -/

/-- C7, as stated, fails: for a file holding `abc`, a NUL byte, `def` and a newline,
the result is `abc`, which is not the file's content with its trailing newline
stripped. -/
theorem file_secret_cut_at_nul :
    (GS_user_secret ⟨fun _ => some "abc\x00def\n".toList, [], none, fun _ => []⟩
        (some "key.txt".toList) (some "literal".toList)).2
      = Result.returned (Ptr.heap "abc".toList) ∧
    chomp ("abc\x00def\n".toList.take 255) = "abc\x00def".toList ∧
    "abc".toList ≠ "abc\x00def".toList := by
  decide

/-- C7, amended: when a file path is given, the result of `GS_user_secret` depends on
the file alone, whatever `sec_str` is.  If the file cannot be opened the result
is `NULL`.  If it opens and is not empty the result is a fresh string holding
the first at most 255 bytes of the file, with a trailing newline stripped, cut
at the first NUL byte if there is one; so it is exactly that text when the text
has no NUL byte.  If nothing is read from it the result is `NULL`.  In all cases the trace shows only the access to the file: the
standard input is not read, no secret is generated, and `sec_str` is not what
is returned. -/
theorem user_secret_file_priority (w : World) (file : List Char)
    (sec_str : Option (List Char)) :
    (w.fopen file = none →
      GS_user_secret w (some file) sec_str =
        ([SEvent.fopen file, SEvent.set_errorf file], Result.returned Ptr.null)) ∧
    (∀ content, w.fopen file = some content → content ≠ [] →
      GS_user_secret w (some file) sec_str =
        ([SEvent.fopen file, SEvent.fread, SEvent.fclose],
          Result.returned (Ptr.heap (cstr (chomp (content.take 255))))) ∧
      (NUL ∉ content.take 255 →
        GS_user_secret w (some file) sec_str =
          ([SEvent.fopen file, SEvent.fread, SEvent.fclose],
            Result.returned (Ptr.heap (chomp (content.take 255)))))) ∧
    (w.fopen file = some [] →
      GS_user_secret w (some file) sec_str =
        ([SEvent.fopen file, SEvent.fread, SEvent.fclose], Result.returned Ptr.null)) ∧
    (∀ (v : World) (other : Option (List Char)), v.fopen file = w.fopen file →
      GS_user_secret v (some file) other = GS_user_secret w (some file) sec_str) := by
  have hcontent : ∀ content, w.fopen file = some content → content ≠ [] →
      GS_user_secret w (some file) sec_str =
        ([SEvent.fopen file, SEvent.fread, SEvent.fclose],
          Result.returned (Ptr.heap (cstr (chomp (content.take 255))))) := by
    intro content hopen hne
    simp [GS_user_secret, user_secret_from_file_content w.fopen file content hopen hne]
  refine ⟨?_, ?_, ?_, ?_⟩
  · intro hopen
    simp [GS_user_secret, user_secret_from_file, hopen]
  · intro content hopen hne
    refine ⟨hcontent content hopen hne, ?_⟩
    intro hnul
    rw [hcontent content hopen hne, cstr_of_no_nul _ (chomp_no_nul _ hnul)]
  · intro hopen
    simp [GS_user_secret, user_secret_from_file, hopen]
  · intro v other hv
    simp only [GS_user_secret, user_secret_from_file, hv]

theorem user_secret_file_priority_witness :
    GS_user_secret ⟨fun _ => some "s3cret-from-file\n".toList, "typed\n".toList, none,
        fun _ => []⟩ (some "key.txt".toList) (some "literal".toList) =
      ([SEvent.fopen "key.txt".toList, SEvent.fread, SEvent.fclose],
        Result.returned (Ptr.heap (chomp ("s3cret-from-file\n".toList.take 255)))) :=
  ((user_secret_file_priority ⟨fun _ => some "s3cret-from-file\n".toList,
      "typed\n".toList, none, fun _ => []⟩ "key.txt".toList (some "literal".toList)).2.1
    "s3cret-from-file\n".toList rfl (by decide)).2 (by decide)

/-- C8: for a file that opens and is empty, `GS_user_secret` returns `NULL` and its
trace has no `gs_ctx_set_errorf` call: no error naming the file is recorded,
unlike for a file that cannot be opened. -/
theorem empty_secret_file_sets_no_error :
    GS_user_secret ⟨fun _ => some [], [], none, fun _ => []⟩ (some "key.txt".toList) none =
      ([SEvent.fopen "key.txt".toList, SEvent.fread, SEvent.fclose],
        Result.returned Ptr.null) ∧
    user_secret_from_file (fun _ => some []) (some "key.txt".toList) =
      ([SEvent.fopen "key.txt".toList, SEvent.fread, SEvent.fclose], Ptr.null) ∧
    user_secret_from_file (fun _ => none) (some "key.txt".toList) =
      ([SEvent.fopen "key.txt".toList, SEvent.set_errorf "key.txt".toList], Ptr.null) := by
  decide

/-- The loop of `user_secret_from_stdin` over answers that are too short, followed by
a line that is empty or at least 8 characters long. -/
theorem user_secret_from_stdin_entered (shorts : List (List Char)) (l tail : List Char)
    (hshort : ∀ s ∈ shorts, '\n' ∉ s ∧ NUL ∉ s ∧ 0 < s.length ∧ s.length < 8)
    (hnl : '\n' ∉ l) (hnul : NUL ∉ l) (hlen : l = [] ∨ 8 ≤ l.length) :
    user_secret_from_stdin (getlines (entered shorts (l ++ '\n' :: tail))) =
      (asked shorts.length,
        Result.returned (if l.length = 0 then Ptr.null else Ptr.heap l)) := by
  induction shorts with
  | nil =>
    have hpos : (l ++ ['\n']).length > 0 := by simp
    simp only [entered, getlines_line l tail hnl, user_secret_from_stdin, hpos,
      not_true_eq_false, if_false, strlen, strdup, line_buffer_cstr, cstr_of_no_nul l hnul,
      asked, List.length_nil]
    rcases hlen with h | h
    · subst h
      simp
    · have h0 : ¬ l.length = 0 := by omega
      simp [h0, h]
  | cons s ss ih =>
    obtain ⟨hsn, hs0, hspos, hslt⟩ := hshort s (List.mem_cons_self _ _)
    have hss : ∀ t ∈ ss, '\n' ∉ t ∧ NUL ∉ t ∧ 0 < t.length ∧ t.length < 8 :=
      fun t ht => hshort t (List.mem_cons_of_mem _ ht)
    have hpos : (s ++ ['\n']).length > 0 := by simp
    have h0 : ¬ s.length = 0 := by omega
    have h8 : ¬ s.length ≥ 8 := by omega
    simp only [entered, getlines_line s _ hsn, user_secret_from_stdin, hpos,
      not_true_eq_false, if_false, strlen, line_buffer_cstr, cstr_of_no_nul s hs0, h0, h8,
      ih hss, asked, List.length_cons]

/-- A result of length 0 from `getline` (what the replacement `getline` of lines 8-46
yields for an empty line, since it strips the newline itself) fails the
assertion `len > 0`. -/
theorem user_secret_from_stdin_zero_length (rest : List (List Char)) :
    user_secret_from_stdin ([] :: rest) =
      ([SEvent.print prompt, SEvent.getline, SEvent.assert_failed],
        Result.aborted XASSERT_status) := by
  simp [user_secret_from_stdin]

/-- C9, as stated, fails: the line `ab`, NUL, `cdefghijk` has 12 characters, at least
8, and is nevertheless rejected as too short; the loop goes on to the next line
instead of returning that line verbatim. -/
theorem long_line_with_nul_rejected :
    8 ≤ "ab\x00cdefghijk".toList.length ∧
    user_secret_from_stdin (getlines "ab\x00cdefghijk\nlongenough\n".toList) =
      ([SEvent.print prompt, SEvent.getline, SEvent.print "Too short.\n",
        SEvent.print prompt, SEvent.getline],
       Result.returned (Ptr.heap "longenough".toList)) := by
  decide

/-- C9, amended: with no file and no literal string, for lines entered on standard
input that contain no NUL character (each ended by a newline, read by the
`getline` of the C library): every non-empty line of fewer than 8 characters
is answered by `Too short.` and a new prompt, and the loop stops at the first
line that is empty or has at least 8 characters.  An empty line makes
`user_secret_from_stdin` return `NULL`, and `GS_user_secret` then returns what
`GS_gen_secret` produces; a line of at least 8 characters is returned verbatim
without its newline. -/
theorem user_secret_from_stdin_lines (w : World) (shorts : List (List Char))
    (l tail : List Char)
    (hin : w.stdin = entered shorts (l ++ '\n' :: tail))
    (hshort : ∀ s ∈ shorts, '\n' ∉ s ∧ NUL ∉ s ∧ 0 < s.length ∧ s.length < 8)
    (hnl : '\n' ∉ l) (hnul : NUL ∉ l) :
    (l = [] →
      user_secret_from_stdin (getlines w.stdin) =
        (asked shorts.length, Result.returned Ptr.null) ∧
      GS_user_secret w none none =
        (asked shorts.length ++ (GS_gen_secret w).1, (GS_gen_secret w).2)) ∧
    (8 ≤ l.length →
      user_secret_from_stdin (getlines w.stdin) =
        (asked shorts.length, Result.returned (Ptr.heap l)) ∧
      GS_user_secret w none none =
        (asked shorts.length, Result.returned (Ptr.heap l))) := by
  constructor
  · intro hl
    have h := user_secret_from_stdin_entered shorts l tail hshort hnl hnul (Or.inl hl)
    subst hl
    simp only [List.length_nil, if_true] at h
    rw [← hin] at h
    refine ⟨h, ?_⟩
    simp [GS_user_secret, h]
  · intro hl
    have h := user_secret_from_stdin_entered shorts l tail hshort hnl hnul (Or.inr hl)
    have h0 : ¬ l.length = 0 := by omega
    simp only [h0, if_false] at h
    rw [← hin] at h
    refine ⟨h, ?_⟩
    simp [GS_user_secret, h]

theorem user_secret_from_stdin_lines_witness :
    GS_user_secret ⟨fun _ => none, "short\n\n".toList, some [1, 2, 3], fun _ => "GENERATED".toList⟩
        none none =
      (asked 1 ++ (GS_gen_secret ⟨fun _ => none, "short\n\n".toList, some [1, 2, 3],
          fun _ => "GENERATED".toList⟩).1,
        (GS_gen_secret ⟨fun _ => none, "short\n\n".toList, some [1, 2, 3],
          fun _ => "GENERATED".toList⟩).2) ∧
    GS_user_secret ⟨fun _ => none, "short\nlongenough\n".toList, none, fun _ => []⟩
        none none =
      (asked 1, Result.returned (Ptr.heap "longenough".toList)) :=
  ⟨((user_secret_from_stdin_lines ⟨fun _ => none, "short\n\n".toList, some [1, 2, 3],
        fun _ => "GENERATED".toList⟩ ["short".toList] [] [] rfl (by decide) (by decide)
        (by decide)).1 rfl).2,
   ((user_secret_from_stdin_lines ⟨fun _ => none, "short\nlongenough\n".toList, none,
        fun _ => []⟩ ["short".toList] "longenough".toList [] rfl (by decide) (by decide)
        (by decide)).2 (by decide)).2⟩

/-! ### Claim on `GS_hton` -/

/-- C10: if `inet_addr` yields a value other than all-ones, `GS_hton` returns it and
calls nothing else (the resolver is not consulted, and the result is the same
for every resolver); otherwise it calls `gethostbyname` and returns the first
address of the answer, or all-ones when there is no answer, no address list or
an empty address list. -/
theorem GS_hton_resolution (inet_addr : List Char → U32)
    (gethostbyname : List Char → Option hostent) (hostname : List Char) :
    (inet_addr hostname ≠ 0xFFFFFFFF →
      ∀ resolver : List Char → Option hostent,
        GS_hton inet_addr resolver hostname =
          ([HEvent.inet_addr hostname], inet_addr hostname)) ∧
    (inet_addr hostname = 0xFFFFFFFF →
      (∀ he a others, gethostbyname hostname = some he →
          he.h_addr_list = some (a :: others) →
        GS_hton inet_addr gethostbyname hostname =
          ([HEvent.inet_addr hostname, HEvent.gethostbyname hostname], a)) ∧
      ((gethostbyname hostname = none ∨
          ∃ he, gethostbyname hostname = some he ∧
            (he.h_addr_list = none ∨ he.h_addr_list = some [])) →
        GS_hton inet_addr gethostbyname hostname =
          ([HEvent.inet_addr hostname, HEvent.gethostbyname hostname], 0xFFFFFFFF))) := by
  constructor
  · intro h resolver
    simp [GS_hton, h]
  · intro h
    constructor
    · intro he a others hhe hlist
      simp [GS_hton, h, hhe, hlist]
    · rintro (hnone | ⟨he, hhe, hnull | hempty⟩)
      · simp [GS_hton, h, hnone]
      · simp [GS_hton, h, hhe, hnull]
      · simp [GS_hton, h, hhe, hempty]

theorem GS_hton_resolution_witness :
    (∀ resolver : List Char → Option hostent,
      GS_hton (fun n => if n = "1.2.3.4".toList then 0x04030201 else 0xFFFFFFFF)
          resolver "1.2.3.4".toList =
        ([HEvent.inet_addr "1.2.3.4".toList], 0x04030201)) ∧
    GS_hton (fun n => if n = "1.2.3.4".toList then 0x04030201 else 0xFFFFFFFF)
        (fun _ => none) "no.such.host".toList =
      ([HEvent.inet_addr "no.such.host".toList, HEvent.gethostbyname "no.such.host".toList],
        0xFFFFFFFF) :=
  ⟨(GS_hton_resolution (fun n => if n = "1.2.3.4".toList then 0x04030201 else 0xFFFFFFFF)
      (fun _ => none) "1.2.3.4".toList).1 (by decide),
   ((GS_hton_resolution (fun n => if n = "1.2.3.4".toList then 0x04030201 else 0xFFFFFFFF)
      (fun _ => none) "no.such.host".toList).2 (by decide)).2 (Or.inl rfl)⟩

end GSocket
